import Mathlib

/-!
Verification of the schema-guided-reasoning demo: an in-memory business-record
store (rules, invoices, emails, products), an action catalog, a dispatch
function mapping each decoded action to one store mutation or query, a bounded
task-runner loop, and the JSON-schema transform used for strict-mode
structured output.  All definitions are shallow embeddings of the Python
source; theorems settle the spec claims against them.
-/

namespace SGR

/-- A product catalog entry: display name and unit price. -/
structure Product where
  name : String
  price : ℚ
deriving DecidableEq

/-- A customer-interaction rule, created by the CreateRule action. -/
structure Rule where
  email : String
  rule : String
deriving DecidableEq

/-- A recorded outgoing email. Only recipient, subject and message are
stored; toAddr embeds the dict key named to in the source. -/
structure EmailMsg where
  toAddr : String
  subject : String
  message : String
deriving DecidableEq

/-- An invoice record as built by the IssueInvoice dispatch branch. -/
structure Invoice where
  id : String
  email : String
  file : String
  skus : List String
  discount_amount : ℚ
  discount_percent : ℤ
  total : ℚ
  void : Bool
deriving DecidableEq

/-- The in-memory store: the global DB dictionary of the source.  Python
dictionaries are insertion-ordered with unique keys; they are embedded as
association lists. -/
structure Store where
  rules : List Rule
  invoices : List (String × Invoice)
  emails : List EmailMsg
  products : List (String × Product)
deriving DecidableEq

/-- Embedding of Python dict lookup (d.get(k)): first entry with the key. -/
def dictGet {A : Type} (l : List (String × A)) (k : String) : Option A :=
  (l.find? (fun p => p.1 == k)).map Prod.snd

/-- Embedding of Python dict assignment (d[k] = v): replace in place if the
key is present, otherwise append at the end. -/
def dictInsert {A : Type} (l : List (String × A)) (k : String) (v : A) :
    List (String × A) :=
  if l.any (fun p => p.1 == k) then
    l.map (fun p => if p.1 == k then (k, v) else p)
  else l ++ [(k, v)]

/-- Round-half-to-even on the integer grid, as Python round() behaves on the
exact values arising here. -/
def roundHalfEven (q : ℚ) : ℤ :=
  let f := ⌊q⌋
  if q - f < 1 / 2 then f
  else if q - f > 1 / 2 then f + 1
  else if f % 2 = 0 then f else f + 1

/-- Embedding of round(x, 2): round at two decimal places. -/
def pyRound2 (q : ℚ) : ℚ := (roundHalfEven (q * 100) : ℚ) / 100

/-- Little-endian decimal digits with explicit fuel, so that it reduces by
kernel computation. -/
def natToDigitsRev : ℕ → ℕ → List ℕ
  | 0, _ => []
  | fuel + 1, n => if n = 0 then [] else n % 10 :: natToDigitsRev fuel (n / 10)

/-- Decimal string rendering of a natural number, as a Python f-string
renders an int. -/
def decimalRepr (n : ℕ) : String :=
  if n = 0 then "0"
  else (((natToDigitsRev n n).reverse.map Nat.digitChar).asString)

/-- Invoice id construction from the source: "INV-" followed by the decimal
count. -/
def mkInvoiceId (n : ℕ) : String := "INV-" ++ decimalRepr n

/-- The catalog of dispatchable actions (the tagged union of tool-call
payload classes; the Literal tool tags become the constructors). -/
inductive Cmd where
  | sendEmail (subject message : String) (files : List String)
      (recipient_email : String)
  | getCustomerData (email : String)
  | issueInvoice (email : String) (skus : List String) (discount_percent : ℤ)
  | cancelInvoice (invoice_id reason : String)
  | createRule (email : String) (rule : String)
deriving DecidableEq

/-- The payload returned by dispatch: the dict or string the Python function
returns for each branch. -/
inductive DispatchResult where
  | email (e : EmailMsg)
  | rule (r : Rule)
  | query (rules : List Rule) (invoices : List (String × Invoice))
      (emails : List EmailMsg)
  | invoice (inv : Invoice)
  | notFound (msg : String)
deriving DecidableEq

/-- The sku price-summation loop inside the IssueInvoice branch: abort with
the first missing sku, otherwise the sum of the looked-up prices. -/
def sumSkuPrices (products : List (String × Product)) :
    List String → Except String ℚ
  | [] => Except.ok 0
  | sku :: rest =>
    match dictGet products sku with
    | none => Except.error sku
    | some p =>
      match sumSkuPrices products rest with
      | Except.error m => Except.error m
      | Except.ok t => Except.ok (p.price + t)

/-- Embedding of the dispatch function of src/vanilla_sgr/schema_demo.py:
one case per catalog variant, returning the result payload and the updated
store. -/
def dispatch : Cmd → Store → DispatchResult × Store
  | Cmd.sendEmail subject message _files recipient_email, s =>
    let e : EmailMsg := ⟨recipient_email, subject, message⟩
    (DispatchResult.email e, { s with emails := s.emails ++ [e] })
  | Cmd.createRule email rule, s =>
    let r : Rule := ⟨email, rule⟩
    (DispatchResult.rule r, { s with rules := s.rules ++ [r] })
  | Cmd.getCustomerData addr, s =>
    (DispatchResult.query
      (s.rules.filter (fun r => r.email == addr))
      (s.invoices.filter (fun inv => inv.2.email == addr))
      (s.emails.filter (fun em => em.toAddr == addr)), s)
  | Cmd.issueInvoice email skus discount_percent, s =>
    match sumSkuPrices s.products skus with
    | Except.error sku =>
      (DispatchResult.notFound ("Product " ++ sku ++ " not found"), s)
    | Except.ok total =>
      let discount := pyRound2 (total * (discount_percent : ℚ) / 100)
      let invoice_id := mkInvoiceId (s.invoices.length + 1)
      let inv : Invoice :=
        ⟨invoice_id, email, "/invoices" ++ invoice_id ++ ".pdf", skus,
          discount, discount_percent, total, false⟩
      (DispatchResult.invoice inv,
        { s with invoices := dictInsert s.invoices invoice_id inv })
  | Cmd.cancelInvoice invoice_id _reason, s =>
    match dictGet s.invoices invoice_id with
    | none =>
      (DispatchResult.notFound ("Invoice " ++ invoice_id ++ " not found"), s)
    | some inv =>
      let inv2 := { inv with void := true }
      (DispatchResult.invoice inv2,
        { s with invoices := dictInsert s.invoices invoice_id inv2 })

/-- The seeded global DB of both schema_demo.py files. -/
def DB : Store :=
  { rules := []
    invoices := []
    emails := []
    products :=
      [("SKU-205", ⟨"AGI course 101 Personal", 258⟩),
       ("SKU-210", ⟨"AGI 101 Course Team", 1290⟩),
       ("SKU-220", ⟨"Building AGI - Online Excercises", 315⟩)] }

/-- Embedding of the dispatch function of src/schema_demo.py.  Its
IssueInvoice branch computes the discount as round(total * 1.0 * discount /
100.0, 2), reading the local variable discount before it is assigned, so
Python raises UnboundLocalError whenever every sku is found; a raised
exception is modelled as none. -/
def dispatch2 : Cmd → Store → Option (DispatchResult × Store)
  | Cmd.sendEmail subject message _files recipient_email, s =>
    let e : EmailMsg := ⟨recipient_email, subject, message⟩
    some (DispatchResult.email e, { s with emails := s.emails ++ [e] })
  | Cmd.createRule email rule, s =>
    let r : Rule := ⟨email, rule⟩
    some (DispatchResult.rule r, { s with rules := s.rules ++ [r] })
  | Cmd.getCustomerData addr, s =>
    some (DispatchResult.query
      (s.rules.filter (fun r => r.email == addr))
      (s.invoices.filter (fun inv => inv.2.email == addr))
      (s.emails.filter (fun em => em.toAddr == addr)), s)
  | Cmd.issueInvoice _email skus _discount_percent, s =>
    match sumSkuPrices s.products skus with
    | Except.error sku =>
      some (DispatchResult.notFound ("Product " ++ sku ++ " not found"), s)
    | Except.ok _total => none
  | Cmd.cancelInvoice invoice_id _reason, s =>
    match dictGet s.invoices invoice_id with
    | none =>
      some (DispatchResult.notFound ("Invoice " ++ invoice_id ++ " not found"), s)
    | some inv =>
      let inv2 := { inv with void := true }
      some (DispatchResult.invoice inv2,
        { s with invoices := dictInsert s.invoices invoice_id inv2 })

/-- Unit price of a sku in a store, defaulting to zero when absent. -/
def priceOf (s : Store) (sku : String) : ℚ :=
  match dictGet s.products sku with
  | some p => p.price
  | none => 0

theorem sumSkuPrices_ok (s : Store) (skus : List String)
    (h : ∀ sku ∈ skus, (dictGet s.products sku).isSome) :
    sumSkuPrices s.products skus = Except.ok ((skus.map (priceOf s)).sum) := by
  induction skus with
  | nil => simp [sumSkuPrices]
  | cons sku rest ih =>
    have hhead := h sku (by simp)
    obtain ⟨p, hp⟩ := Option.isSome_iff_exists.mp hhead
    have htail : ∀ x ∈ rest, (dictGet s.products x).isSome := by
      intro x hx; exact h x (by simp [hx])
    simp [sumSkuPrices, hp, ih htail, priceOf]


theorem dictGet_cons {A : Type} (q : String × A) (rest : List (String × A))
    (k : String) :
    dictGet (q :: rest) k = if q.1 = k then some q.2 else dictGet rest k := by
  by_cases h : q.1 = k
  · have hb : (q.1 == k) = true := by simpa using h
    simp [dictGet, List.find?, hb, h]
  · have hb : (q.1 == k) = false := by simpa using h
    simp [dictGet, List.find?, hb, h]

theorem dictGet_isSome_iff {A : Type} (l : List (String × A)) (k : String) :
    (dictGet l k).isSome ↔ ∃ p ∈ l, p.1 = k := by
  induction l with
  | nil => simp [dictGet]
  | cons q rest ih =>
    rw [dictGet_cons]
    by_cases h : q.1 = k
    · simp [h]
    · simp [h, ih]

theorem dictGet_map_replace {A : Type} (k : String) (v : A) :
    ∀ l : List (String × A), l.any (fun p => p.1 == k) = true →
      dictGet (l.map (fun p => if p.1 == k then (k, v) else p)) k = some v := by
  intro l
  induction l with
  | nil => intro h; simp at h
  | cons q rest ih =>
    intro h
    rw [List.map_cons]
    by_cases hq : q.1 = k
    · have hb : (q.1 == k) = true := by simpa using hq
      simp only [hb, if_true]
      rw [dictGet_cons]
      simp
    · have hb : (q.1 == k) = false := by simpa using hq
      have h2 : rest.any (fun p => p.1 == k) = true := by
        rw [List.any_cons, hb, Bool.false_or] at h
        exact h
      simp only [hb, Bool.false_eq_true, if_false]
      rw [dictGet_cons, if_neg hq]
      exact ih h2

theorem dictGet_append_fresh {A : Type} (k : String) (v : A) :
    ∀ l : List (String × A), (∀ p ∈ l, ¬ p.1 = k) →
      dictGet (l ++ [(k, v)]) k = some v := by
  intro l
  induction l with
  | nil => simp [dictGet_cons]
  | cons q rest ih =>
    intro h
    rw [List.cons_append, dictGet_cons, if_neg (h q (List.mem_cons_self q rest))]
    exact ih (fun p hp => h p (List.mem_cons_of_mem q hp))

theorem dictGet_dictInsert_self {A : Type} (l : List (String × A)) (k : String)
    (v : A) : dictGet (dictInsert l k v) k = some v := by
  unfold dictInsert
  split
  case isTrue h => exact dictGet_map_replace k v l h
  case isFalse h =>
    refine dictGet_append_fresh k v l ?_
    intro p hp hc
    exact h (by rw [List.any_eq_true]; exact ⟨p, hp, by simpa using hc⟩)

theorem dictGet_dictInsert_isSome {A : Type} (l : List (String × A))
    (k k2 : String) (v : A) (h : (dictGet l k).isSome) :
    (dictGet (dictInsert l k2 v) k).isSome := by
  rw [dictGet_isSome_iff] at h ⊢
  obtain ⟨p, hp, hpk⟩ := h
  unfold dictInsert
  split
  · by_cases hc : p.1 = k2
    · refine ⟨(k2, v), List.mem_map.mpr ⟨p, hp, by simp [hc]⟩, ?_⟩
      rw [← hc]; exact hpk
    · refine ⟨p, List.mem_map.mpr ⟨p, hp, ?_⟩, hpk⟩
      have hb : (p.1 == k2) = false := by simpa using hc
      simp [hb]
  · exact ⟨p, by simp [hp], hpk⟩

theorem roundHalfEven_intCast (z : ℤ) : roundHalfEven (z : ℚ) = z := by
  simp [roundHalfEven]

theorem pyRound2_div100 (z : ℤ) : pyRound2 ((z : ℚ) / 100) = (z : ℚ) / 100 := by
  unfold pyRound2
  rw [div_mul_cancel₀ _ (by norm_num : (100 : ℚ) ≠ 0), roundHalfEven_intCast]

/-- Claim C1: for every IssueInvoice action whose skus all exist in the
product catalog, dispatch creates an invoice whose total equals the sum of
the catalog unit prices of the listed skus (the discount is not subtracted
from the total) and whose discount_amount equals round(total *
discount_percent / 100, 2); in particular, with the seeded catalog,
IssueInvoice on SKU-205 and SKU-210 at a 10 percent discount yields total
1548 and discount_amount 154.80, that is 774 / 5. -/
theorem issueInvoice_pricing :
    (∀ (s : Store) (email : String) (skus : List String) (dp : ℤ),
      (∀ sku ∈ skus, (dictGet s.products sku).isSome) →
      ∃ inv s2,
        dispatch (Cmd.issueInvoice email skus dp) s =
          (DispatchResult.invoice inv, s2) ∧
        inv.total = (skus.map (priceOf s)).sum ∧
        inv.discount_amount = pyRound2 (inv.total * (dp : ℚ) / 100)) ∧
    (∃ inv s2,
      dispatch (Cmd.issueInvoice "sama@openai.com" ["SKU-205", "SKU-210"] 10)
          DB = (DispatchResult.invoice inv, s2) ∧
      inv.total = 1548 ∧ inv.discount_amount = 774 / 5) := by
  constructor
  · intro s email skus dp h
    have hs := sumSkuPrices_ok s skus h
    have h1 : (dispatch (Cmd.issueInvoice email skus dp) s).1 =
        DispatchResult.invoice
          ⟨mkInvoiceId (s.invoices.length + 1), email,
            "/invoices" ++ mkInvoiceId (s.invoices.length + 1) ++ ".pdf", skus,
            pyRound2 ((skus.map (priceOf s)).sum * (dp : ℚ) / 100), dp,
            (skus.map (priceOf s)).sum, false⟩ := by
      simp [dispatch, hs]
    exact ⟨_, _, Prod.ext h1 rfl, rfl, rfl⟩
  · have h1 : (dispatch
        (Cmd.issueInvoice "sama@openai.com" ["SKU-205", "SKU-210"] 10) DB).1 =
        DispatchResult.invoice
          ⟨mkInvoiceId 1, "sama@openai.com",
            "/invoices" ++ mkInvoiceId 1 ++ ".pdf", ["SKU-205", "SKU-210"],
            pyRound2 ((258 + (1290 + 0)) * ((10 : ℤ) : ℚ) / 100), 10,
            258 + (1290 + 0), false⟩ := rfl
    refine ⟨_, _, Prod.ext h1 rfl, ?_, ?_⟩
    · norm_num
    · show pyRound2 ((258 + (1290 + 0)) * ((10 : ℤ) : ℚ) / 100) = 774 / 5
      have harg : ((258 + (1290 + 0) : ℚ)) * ((10 : ℤ) : ℚ) / 100 =
          ((15480 : ℤ) : ℚ) / 100 := by norm_num
      rw [harg, pyRound2_div100]
      norm_num

theorem issueInvoice_pricing_witness :
    (∀ sku ∈ ["SKU-205", "SKU-210"], (dictGet DB.products sku).isSome) ∧
    (∃ inv s2,
      dispatch (Cmd.issueInvoice "a@b.c" ["SKU-205", "SKU-210"] 10) DB =
        (DispatchResult.invoice inv, s2) ∧
      inv.total = (["SKU-205", "SKU-210"].map (priceOf DB)).sum ∧
      inv.discount_amount = pyRound2 (inv.total * ((10 : ℤ) : ℚ) / 100)) :=
  ⟨by decide, issueInvoice_pricing.1 DB "a@b.c" ["SKU-205", "SKU-210"] 10
    (by decide)⟩

theorem sumSkuPrices_first_missing (products : List (String × Product))
    (skus : List String) (h : ∃ sku ∈ skus, dictGet products sku = none) :
    ∃ pre post sku, skus = pre ++ sku :: post ∧
      (∀ y ∈ pre, (dictGet products y).isSome) ∧
      dictGet products sku = none ∧
      sumSkuPrices products skus = Except.error sku := by
  induction skus with
  | nil => simp at h
  | cons x rest ih =>
    cases hx : dictGet products x with
    | none =>
      exact ⟨[], rest, x, rfl, by simp, hx, by simp [sumSkuPrices, hx]⟩
    | some p =>
      have hrest : ∃ sku ∈ rest, dictGet products sku = none := by
        obtain ⟨sku, hm, hn⟩ := h
        rcases List.mem_cons.mp hm with heq | hm2
        · rw [heq] at hn; rw [hn] at hx; cases hx
        · exact ⟨sku, hm2, hn⟩
      obtain ⟨pre, post, sku, hsplit, hpre, hnone, hsum⟩ := ih hrest
      refine ⟨x :: pre, post, sku, by simp [hsplit], ?_, hnone, ?_⟩
      · intro y hy
        rcases List.mem_cons.mp hy with heq | hy2
        · rw [heq, hx]; rfl
        · exact hpre y hy2
      · simp [sumSkuPrices, hx, hsum]

/-- Claim C4: for every IssueInvoice action containing at least one sku
absent from the product catalog, dispatch returns a not-found failure naming
the first missing sku and leaves the store completely unchanged, so no
invoice is created and the invoice count is the same before and after. -/
theorem issueInvoice_unknown_sku (s : Store) (email : String)
    (skus : List String) (dp : ℤ)
    (h : ∃ sku ∈ skus, dictGet s.products sku = none) :
    ∃ pre post sku, skus = pre ++ sku :: post ∧
      (∀ y ∈ pre, (dictGet s.products y).isSome) ∧
      dictGet s.products sku = none ∧
      dispatch (Cmd.issueInvoice email skus dp) s =
        (DispatchResult.notFound ("Product " ++ sku ++ " not found"), s) := by
  obtain ⟨pre, post, sku, hsplit, hpre, hnone, hsum⟩ :=
    sumSkuPrices_first_missing s.products skus h
  exact ⟨pre, post, sku, hsplit, hpre, hnone, by simp [dispatch, hsum]⟩

theorem issueInvoice_unknown_sku_witness :
    (∃ sku ∈ ["SKU-999"], dictGet DB.products sku = none) ∧
    (∃ pre post sku, ["SKU-999"] = pre ++ sku :: post ∧
      (∀ y ∈ pre, (dictGet DB.products y).isSome) ∧
      dictGet DB.products sku = none ∧
      dispatch (Cmd.issueInvoice "a@b.c" ["SKU-999"] 0) DB =
        (DispatchResult.notFound ("Product " ++ sku ++ " not found"), DB)) :=
  ⟨⟨"SKU-999", by simp, by decide⟩,
    issueInvoice_unknown_sku DB "a@b.c" ["SKU-999"] 0
      ⟨"SKU-999", by simp, by decide⟩⟩

theorem cancel_found (s : Store) (invoice_id reason : String) (inv : Invoice)
    (hinv : dictGet s.invoices invoice_id = some inv) :
    dispatch (Cmd.cancelInvoice invoice_id reason) s =
      (DispatchResult.invoice { inv with void := true },
        ⟨s.rules, dictInsert s.invoices invoice_id { inv with void := true },
          s.emails, s.products⟩) := by
  simp [dispatch, hinv]

/-- Claim C5: for every CancelInvoice action, if the invoice id exists the
dispatch sets the void flag of that invoice to true and returns the updated
invoice, a subsequent CancelInvoice on the same id returns it again with
void still true (never clearing it), and if the id does not exist the
dispatch returns a not-found failure and mutates nothing. -/
theorem cancelInvoice_behavior (s : Store) (invoice_id reason : String) :
    (∀ inv, dictGet s.invoices invoice_id = some inv →
      dispatch (Cmd.cancelInvoice invoice_id reason) s =
        (DispatchResult.invoice { inv with void := true },
          ⟨s.rules, dictInsert s.invoices invoice_id { inv with void := true },
            s.emails, s.products⟩) ∧
      dictGet ((dispatch (Cmd.cancelInvoice invoice_id reason) s).2).invoices
          invoice_id = some { inv with void := true } ∧
      (dispatch (Cmd.cancelInvoice invoice_id reason)
          ((dispatch (Cmd.cancelInvoice invoice_id reason) s).2)).1 =
        DispatchResult.invoice { inv with void := true } ∧
      dictGet ((dispatch (Cmd.cancelInvoice invoice_id reason)
          ((dispatch (Cmd.cancelInvoice invoice_id reason) s).2)).2).invoices
          invoice_id = some { inv with void := true }) ∧
    (dictGet s.invoices invoice_id = none →
      dispatch (Cmd.cancelInvoice invoice_id reason) s =
        (DispatchResult.notFound ("Invoice " ++ invoice_id ++ " not found"),
          s)) := by
  constructor
  · intro inv hinv
    have hfirst := cancel_found s invoice_id reason inv hinv
    have hs2 : dictGet
        ((dispatch (Cmd.cancelInvoice invoice_id reason) s).2).invoices
        invoice_id = some { inv with void := true } := by
      rw [hfirst]
      exact dictGet_dictInsert_self _ _ _
    have hsecond := cancel_found _ invoice_id reason _ hs2
    refine ⟨hfirst, hs2, ?_, ?_⟩
    · rw [hsecond]
    · rw [hsecond]
      exact dictGet_dictInsert_self _ _ _
  · intro hnone
    simp [dispatch, hnone]

def sampleInvoice : Invoice :=
  ⟨"INV-1", "cust@example.com", "/invoicesINV-1.pdf", ["SKU-205"], 0, 0, 258,
    false⟩

def sampleStore : Store :=
  { rules := [], invoices := [("INV-1", sampleInvoice)], emails := [],
    products := [] }

theorem cancelInvoice_behavior_witness :
    (dictGet sampleStore.invoices "INV-1" = some sampleInvoice ∧
      (dispatch (Cmd.cancelInvoice "INV-1" "dup") sampleStore =
        (DispatchResult.invoice { sampleInvoice with void := true },
          ⟨sampleStore.rules,
            dictInsert sampleStore.invoices "INV-1"
              { sampleInvoice with void := true },
            sampleStore.emails, sampleStore.products⟩) ∧
      dictGet ((dispatch (Cmd.cancelInvoice "INV-1" "dup")
          sampleStore).2).invoices "INV-1" =
        some { sampleInvoice with void := true } ∧
      (dispatch (Cmd.cancelInvoice "INV-1" "dup")
          ((dispatch (Cmd.cancelInvoice "INV-1" "dup") sampleStore).2)).1 =
        DispatchResult.invoice { sampleInvoice with void := true } ∧
      dictGet ((dispatch (Cmd.cancelInvoice "INV-1" "dup")
          ((dispatch (Cmd.cancelInvoice "INV-1" "dup") sampleStore).2)).2).invoices
          "INV-1" = some { sampleInvoice with void := true })) ∧
    (dictGet sampleStore.invoices "INV-2" = none ∧
      dispatch (Cmd.cancelInvoice "INV-2" "dup") sampleStore =
        (DispatchResult.notFound ("Invoice " ++ "INV-2" ++ " not found"),
          sampleStore)) :=
  ⟨⟨rfl, (cancelInvoice_behavior sampleStore "INV-1" "dup").1 sampleInvoice rfl⟩,
    ⟨rfl, (cancelInvoice_behavior sampleStore "INV-2" "dup").2 rfl⟩⟩

/-- Claim C7: for every store state and email string, dispatching
GetCustomerData returns exactly those rules, invoices and emails whose
stored email (for emails, recipient) field is string-equal to the query,
with no normalization, and excludes every other entity; the store is left
unchanged. -/
theorem getCustomerData_exact (s : Store) (addr : String) :
    ∃ rs pairs es,
      dispatch (Cmd.getCustomerData addr) s =
        (DispatchResult.query rs pairs es, s) ∧
      (∀ r : Rule, r ∈ rs ↔ r ∈ s.rules ∧ r.email = addr) ∧
      (∀ p : String × Invoice, p ∈ pairs ↔ p ∈ s.invoices ∧ p.2.email = addr) ∧
      (∀ e : EmailMsg, e ∈ es ↔ e ∈ s.emails ∧ e.toAddr = addr) := by
  refine ⟨_, _, _, rfl, ?_, ?_, ?_⟩ <;> intro x <;> simp [List.mem_filter]

/-- Claim C8: for every action and store state, dispatch never removes any
entity: rules and emails present before are present after (the lists are
only appended to), every invoice id present before is present after, and
the product catalog is identical before and after. -/
theorem dispatch_preserves_entities (c : Cmd) (s : Store) :
    (∃ t, ((dispatch c s).2).rules = s.rules ++ t) ∧
    (∃ t, ((dispatch c s).2).emails = s.emails ++ t) ∧
    (∀ k, (dictGet s.invoices k).isSome →
      (dictGet ((dispatch c s).2).invoices k).isSome) ∧
    ((dispatch c s).2).products = s.products := by
  cases c with
  | sendEmail subject message files recipient_email =>
    exact ⟨⟨[], (List.append_nil _).symm⟩,
      ⟨[⟨recipient_email, subject, message⟩], rfl⟩, fun k h => h, rfl⟩
  | createRule email rule =>
    exact ⟨⟨[⟨email, rule⟩], rfl⟩, ⟨[], (List.append_nil _).symm⟩,
      fun k h => h, rfl⟩
  | getCustomerData addr =>
    exact ⟨⟨[], (List.append_nil _).symm⟩, ⟨[], (List.append_nil _).symm⟩,
      fun k h => h, rfl⟩
  | issueInvoice email skus dp =>
    cases hs : sumSkuPrices s.products skus with
    | error sku =>
      have hstore : (dispatch (Cmd.issueInvoice email skus dp) s).2 = s := by
        simp [dispatch, hs]
      rw [hstore]
      exact ⟨⟨[], (List.append_nil _).symm⟩, ⟨[], (List.append_nil _).symm⟩,
        fun k h => h, rfl⟩
    | ok total =>
      have hstore : (dispatch (Cmd.issueInvoice email skus dp) s).2 =
          ⟨s.rules,
            dictInsert s.invoices (mkInvoiceId (s.invoices.length + 1))
              ⟨mkInvoiceId (s.invoices.length + 1), email,
                "/invoices" ++ mkInvoiceId (s.invoices.length + 1) ++ ".pdf",
                skus, pyRound2 (total * (dp : ℚ) / 100), dp, total, false⟩,
            s.emails, s.products⟩ := by
        simp [dispatch, hs]
      rw [hstore]
      exact ⟨⟨[], (List.append_nil _).symm⟩, ⟨[], (List.append_nil _).symm⟩,
        fun k h => dictGet_dictInsert_isSome _ _ _ _ h, rfl⟩
  | cancelInvoice invoice_id reason =>
    cases hg : dictGet s.invoices invoice_id with
    | none =>
      have hstore : (dispatch (Cmd.cancelInvoice invoice_id reason) s).2 = s := by
        simp [dispatch, hg]
      rw [hstore]
      exact ⟨⟨[], (List.append_nil _).symm⟩, ⟨[], (List.append_nil _).symm⟩,
        fun k h => h, rfl⟩
    | some inv =>
      have hstore : (dispatch (Cmd.cancelInvoice invoice_id reason) s).2 =
          ⟨s.rules, dictInsert s.invoices invoice_id { inv with void := true },
            s.emails, s.products⟩ := by
        simp [dispatch, hg]
      rw [hstore]
      exact ⟨⟨[], (List.append_nil _).symm⟩, ⟨[], (List.append_nil _).symm⟩,
        fun k h => dictGet_dictInsert_isSome _ _ _ _ h, rfl⟩

theorem dispatch_preserves_entities_witness :
    ((∃ t, ((dispatch (Cmd.cancelInvoice "INV-1" "r") sampleStore).2).rules =
        sampleStore.rules ++ t) ∧
      (∃ t, ((dispatch (Cmd.cancelInvoice "INV-1" "r") sampleStore).2).emails =
        sampleStore.emails ++ t) ∧
      (∀ k, (dictGet sampleStore.invoices k).isSome →
        (dictGet ((dispatch (Cmd.cancelInvoice "INV-1" "r")
          sampleStore).2).invoices k).isSome) ∧
      ((dispatch (Cmd.cancelInvoice "INV-1" "r") sampleStore).2).products =
        sampleStore.products) ∧
    ((dictGet sampleStore.invoices "INV-1").isSome ∧
      (dictGet ((dispatch (Cmd.cancelInvoice "INV-1" "r")
        sampleStore).2).invoices "INV-1").isSome) :=
  ⟨dispatch_preserves_entities (Cmd.cancelInvoice "INV-1" "r") sampleStore,
    rfl,
    (dispatch_preserves_entities (Cmd.cancelInvoice "INV-1" "r")
      sampleStore).2.2.1 "INV-1" rfl⟩

theorem natToDigitsRev_eq_digits (fuel : ℕ) :
    ∀ n : ℕ, n ≤ fuel → natToDigitsRev fuel n = Nat.digits 10 n := by
  induction fuel with
  | zero =>
    intro n h
    interval_cases n
    simp [natToDigitsRev]
  | succ f ih =>
    intro n h
    by_cases hn : n = 0
    · simp [natToDigitsRev, hn]
    · rw [natToDigitsRev, if_neg hn,
        Nat.digits_def' (by norm_num : 1 < 10) (Nat.pos_of_ne_zero hn),
        ih (n / 10) (by omega)]

theorem digitChar_inj_lt10 (a b : ℕ) (ha : a < 10) (hb : b < 10)
    (h : Nat.digitChar a = Nat.digitChar b) : a = b := by
  interval_cases a <;> interval_cases b <;>
    first
    | rfl
    | exact absurd h (by decide)

theorem map_digitChar_inj :
    ∀ l1 l2 : List ℕ, (∀ d ∈ l1, d < 10) → (∀ d ∈ l2, d < 10) →
      l1.map Nat.digitChar = l2.map Nat.digitChar → l1 = l2 := by
  intro l1
  induction l1 with
  | nil =>
    intro l2 _ _ h
    cases l2 with
    | nil => rfl
    | cons b t2 => simp at h
  | cons a t ih =>
    intro l2 h1 h2 h
    cases l2 with
    | nil => simp at h
    | cons b t2 =>
      simp only [List.map_cons, List.cons.injEq] at h
      have hab := digitChar_inj_lt10 a b (h1 a (by simp)) (h2 b (by simp)) h.1
      rw [hab,
        ih t2 (fun d hd => h1 d (by simp [hd])) (fun d hd => h2 d (by simp [hd]))
          h.2]

theorem decimalRepr_inj_pos (a b : ℕ) (ha : 0 < a) (hb : 0 < b)
    (h : decimalRepr a = decimalRepr b) : a = b := by
  unfold decimalRepr at h
  rw [if_neg (by omega), if_neg (by omega),
    natToDigitsRev_eq_digits a a le_rfl,
    natToDigitsRev_eq_digits b b le_rfl] at h
  have hdata : ((Nat.digits 10 a).reverse.map Nat.digitChar) =
      ((Nat.digits 10 b).reverse.map Nat.digitChar) := by
    simpa [List.asString] using congrArg String.data h
  have hrev := map_digitChar_inj _ _
    (fun d hd => Nat.digits_lt_base (by norm_num) (List.mem_reverse.mp hd))
    (fun d hd => Nat.digits_lt_base (by norm_num) (List.mem_reverse.mp hd))
    hdata
  have hdig : Nat.digits 10 a = Nat.digits 10 b := by
    simpa using congrArg List.reverse hrev
  exact Nat.digits.injective 10 hdig

theorem mkInvoiceId_inj_pos (a b : ℕ) (ha : 0 < a) (hb : 0 < b)
    (h : mkInvoiceId a = mkInvoiceId b) : a = b := by
  unfold mkInvoiceId at h
  have hdata := congrArg String.data h
  simp only [String.data_append] at hdata
  have hsuffix : (decimalRepr a).data = (decimalRepr b).data :=
    List.append_cancel_left hdata
  exact decimalRepr_inj_pos a b ha hb (String.ext hsuffix)

/-- The ids of the invoices created by successful IssueInvoice dispatches
along a sequence of actions, in order of creation. -/
def issuedIds : List Cmd → Store → List String
  | [], _ => []
  | Cmd.issueInvoice email skus dp :: rest, s =>
    match dispatch (Cmd.issueInvoice email skus dp) s with
    | (DispatchResult.invoice inv, s2) => inv.id :: issuedIds rest s2
    | (_, s2) => issuedIds rest s2
  | c :: rest, s => issuedIds rest (dispatch c s).2

/-- The invariant that the invoice dictionary keys are exactly INV-1 ..
INV-n in insertion order. -/
def canonicalKeys (s : Store) : Prop :=
  s.invoices.map Prod.fst =
    (List.range s.invoices.length).map (fun i => mkInvoiceId (i + 1))

theorem canonicalKeys_fresh (s : Store) (h : canonicalKeys s) :
    (s.invoices.any
      (fun p => p.1 == mkInvoiceId (s.invoices.length + 1))) = false := by
  by_contra hc
  rw [Bool.not_eq_false, List.any_eq_true] at hc
  obtain ⟨p, hp, hpk⟩ := hc
  have hmem : p.1 ∈ s.invoices.map Prod.fst := List.mem_map.mpr ⟨p, hp, rfl⟩
  rw [h] at hmem
  obtain ⟨i, hi, hik⟩ := List.mem_map.mp hmem
  rw [List.mem_range] at hi
  have hk : p.1 = mkInvoiceId (s.invoices.length + 1) := by simpa using hpk
  have := mkInvoiceId_inj_pos (i + 1) (s.invoices.length + 1) (by omega)
    (by omega) (by rw [hik, hk])
  omega

theorem dictInsert_fresh_eq {A : Type} (l : List (String × A)) (k : String)
    (v : A) (h : l.any (fun p => p.1 == k) = false) :
    dictInsert l k v = l ++ [(k, v)] := by
  unfold dictInsert
  rw [if_neg (by simp [h])]

theorem dictInsert_present_map_fst {A : Type} (l : List (String × A))
    (k : String) (v : A) (h : l.any (fun p => p.1 == k) = true) :
    (dictInsert l k v).map Prod.fst = l.map Prod.fst ∧
    (dictInsert l k v).length = l.length := by
  unfold dictInsert
  rw [if_pos h]
  constructor
  · rw [List.map_map]
    apply List.map_congr_left
    intro p _
    by_cases hc : (p.1 == k) = true
    · have hpk : p.1 = k := by simpa using hc
      simp [hc, hpk]
    · have hne : ¬ p.1 = k := by simpa using hc
      simp [hc, hne]
  · simp

/-- The invoice constructed by a successful IssueInvoice dispatch. -/
def newInvoice (s : Store) (email : String) (skus : List String) (dp : ℤ)
    (total : ℚ) : Invoice :=
  ⟨mkInvoiceId (s.invoices.length + 1), email,
    "/invoices" ++ mkInvoiceId (s.invoices.length + 1) ++ ".pdf", skus,
    pyRound2 (total * (dp : ℚ) / 100), dp, total, false⟩

theorem dispatch_issue_ok (s : Store) (email : String) (skus : List String)
    (dp : ℤ) (total : ℚ)
    (hs : sumSkuPrices s.products skus = Except.ok total) :
    dispatch (Cmd.issueInvoice email skus dp) s =
      (DispatchResult.invoice (newInvoice s email skus dp total),
        ⟨s.rules,
          dictInsert s.invoices (mkInvoiceId (s.invoices.length + 1))
            (newInvoice s email skus dp total),
          s.emails, s.products⟩) := by
  simp [dispatch, hs, newInvoice]

theorem issuedIds_spec :
    ∀ (cmds : List Cmd) (s : Store), canonicalKeys s →
      issuedIds cmds s = (List.range (issuedIds cmds s).length).map
        (fun i => mkInvoiceId (s.invoices.length + 1 + i)) := by
  intro cmds
  induction cmds with
  | nil => intro s _; simp [issuedIds]
  | cons c rest ih =>
    intro s h
    cases c with
    | sendEmail subject message files recipient_email =>
      exact ih ((dispatch (Cmd.sendEmail subject message files
        recipient_email) s).2) h
    | createRule email rule =>
      exact ih ((dispatch (Cmd.createRule email rule) s).2) h
    | getCustomerData addr =>
      exact ih ((dispatch (Cmd.getCustomerData addr) s).2) h
    | cancelInvoice invoice_id reason =>
      cases hg : dictGet s.invoices invoice_id with
      | none =>
        have hd : dispatch (Cmd.cancelInvoice invoice_id reason) s =
            (DispatchResult.notFound
              ("Invoice " ++ invoice_id ++ " not found"), s) := by
          simp [dispatch, hg]
        have hgoal : issuedIds (Cmd.cancelInvoice invoice_id reason :: rest) s
            = issuedIds rest ((dispatch (Cmd.cancelInvoice invoice_id reason)
              s).2) := rfl
        rw [hgoal, hd]
        exact ih s h
      | some inv =>
        have hd := cancel_found s invoice_id reason inv hg
        have hgoal : issuedIds (Cmd.cancelInvoice invoice_id reason :: rest) s
            = issuedIds rest ((dispatch (Cmd.cancelInvoice invoice_id reason)
              s).2) := rfl
        rw [hgoal, hd]
        have hpresent : s.invoices.any (fun p => p.1 == invoice_id) = true := by
          rw [List.any_eq_true]
          obtain ⟨p, hp, hpk⟩ := (dictGet_isSome_iff s.invoices
            invoice_id).mp (by rw [hg]; rfl)
          exact ⟨p, hp, by simpa using hpk⟩
        have hkeys := dictInsert_present_map_fst s.invoices invoice_id
          { inv with void := true } hpresent
        have h2 : canonicalKeys ⟨s.rules,
            dictInsert s.invoices invoice_id { inv with void := true },
            s.emails, s.products⟩ := by
          unfold canonicalKeys at h ⊢
          rw [show (⟨s.rules,
            dictInsert s.invoices invoice_id { inv with void := true },
            s.emails, s.products⟩ : Store).invoices =
              dictInsert s.invoices invoice_id { inv with void := true }
            from rfl, hkeys.1, hkeys.2]
          exact h
        have hstep := ih _ h2
        rw [show (⟨s.rules,
          dictInsert s.invoices invoice_id { inv with void := true },
          s.emails, s.products⟩ : Store).invoices.length =
            s.invoices.length from hkeys.2] at hstep
        exact hstep
    | issueInvoice email skus dp =>
      cases hs : sumSkuPrices s.products skus with
      | error sku =>
        have hd : dispatch (Cmd.issueInvoice email skus dp) s =
            (DispatchResult.notFound ("Product " ++ sku ++ " not found"),
              s) := by
          simp [dispatch, hs]
        simp only [issuedIds, hd]
        exact ih s h
      | ok total =>
        have hd := dispatch_issue_ok s email skus dp total hs
        have hfresh := canonicalKeys_fresh s h
        rw [dictInsert_fresh_eq s.invoices _ _ hfresh] at hd
        have h2 : canonicalKeys ⟨s.rules,
            s.invoices ++ [(mkInvoiceId (s.invoices.length + 1),
              newInvoice s email skus dp total)],
            s.emails, s.products⟩ := by
          unfold canonicalKeys at h ⊢
          rw [show (⟨s.rules,
            s.invoices ++ [(mkInvoiceId (s.invoices.length + 1),
              newInvoice s email skus dp total)],
            s.emails, s.products⟩ : Store).invoices =
              s.invoices ++ [(mkInvoiceId (s.invoices.length + 1),
                newInvoice s email skus dp total)] from rfl]
          rw [List.map_append, h, List.length_append, List.map_cons]
          simp [List.range_succ]
        have hstep := ih _ h2
        rw [show (⟨s.rules,
          s.invoices ++ [(mkInvoiceId (s.invoices.length + 1),
            newInvoice s email skus dp total)],
          s.emails, s.products⟩ : Store).invoices.length =
            s.invoices.length + 1 by simp] at hstep
        simp only [issuedIds, hd]
        rw [hstep]
        simp only [List.length_cons, List.length_map, List.length_range]
        rw [List.range_succ_eq_map]
        simp only [List.map_cons, List.map_map]
        refine congrArg₂ List.cons ?_ ?_
        · show mkInvoiceId (s.invoices.length + 1) =
            mkInvoiceId (s.invoices.length + 1 + 0)
          rfl
        · apply List.map_congr_left
          intro i _
          show mkInvoiceId (s.invoices.length + 1 + 1 + i) =
            mkInvoiceId (s.invoices.length + 1 + Nat.succ i)
          congr 1
          omega

/-- Claim C3: for every sequence of dispatched actions starting from the
seeded store, the ids of invoices created by successful IssueInvoice
dispatches are INV-1, INV-2, and so on in order of creation, each unique and
never reused, even when earlier invoices were canceled in between. -/
theorem invoice_ids_sequential (cmds : List Cmd) :
    issuedIds cmds DB = (List.range (issuedIds cmds DB).length).map
      (fun i => mkInvoiceId (i + 1)) ∧
    (issuedIds cmds DB).Nodup := by
  have h0 : canonicalKeys DB := by simp [canonicalKeys, DB]
  have h := issuedIds_spec cmds DB h0
  rw [show DB.invoices.length = 0 from rfl] at h
  constructor
  · rw [h]
    simp only [List.length_map, List.length_range]
    apply List.map_congr_left
    intro i _
    congr 1
    omega
  · rw [h]
    refine List.Nodup.map_on ?_ (List.nodup_range _)
    intro x _ y _ hxy
    have := mkInvoiceId_inj_pos (0 + 1 + x) (0 + 1 + y) (by omega) (by omega)
      hxy
    omega

/-- The terminal tool-call payload of the decision schema. -/
inductive CompletionCode where
  | completed
  | failed
deriving DecidableEq

/-- The polymorphic function field of the decision schema: either the
terminal ReportTaskCompletion or one of the dispatchable actions. -/
inductive FnChoice where
  | report (completed_steps_laconic : List String) (code : CompletionCode)
  | act (c : Cmd)
deriving DecidableEq

/-- The NextStep decision object returned by the oracle at every step. -/
structure NextStep where
  current_task : String
  plan_remaining_steps_brief : List String
  task_completed : Bool
  function : FnChoice
deriving DecidableEq

/-- The field constraints pydantic enforces on the function payload: the
only annotated constraint is Le(50) on discount_percent. -/
def fnValid : FnChoice → Bool
  | FnChoice.act (Cmd.issueInvoice _ _ dp) => decide (dp ≤ 50)
  | _ => true

/-- Decode-time structural validation of a NextStep candidate: plan length
between 1 and 5 and the function payload constraints. -/
def validNextStep (j : NextStep) : Bool :=
  decide (1 ≤ j.plan_remaining_steps_brief.length) &&
  decide (j.plan_remaining_steps_brief.length ≤ 5) &&
  fnValid j.function

/-- Claim C2 counterexample: schema validation does not reject negative
discounts; a decoded IssueInvoice with discount_percent equal to minus one
passes validation, so validation does not confine discount_percent to the
interval from 0 to 50. -/
theorem discount_validation_counterexample :
    ¬ (∀ (j : NextStep) (email : String) (skus : List String) (dp : ℤ),
        validNextStep j = true →
        j.function = FnChoice.act (Cmd.issueInvoice email skus dp) →
        0 ≤ dp) := by
  intro hcl
  have := hcl ⟨"t", ["p"], false, FnChoice.act (Cmd.issueInvoice "e" [] (-1))⟩
    "e" [] (-1) (by decide) rfl
  omega

/-- Claim C2 as amended: schema validation enforces only the upper bound,
discount_percent at most 50, on every decoded IssueInvoice action before
dispatch: it rejects 51, accepts 50, and also accepts negative values. -/
theorem discount_validation_le50 :
    (∀ (j : NextStep) (email : String) (skus : List String) (dp : ℤ),
      validNextStep j = true →
      j.function = FnChoice.act (Cmd.issueInvoice email skus dp) →
      dp ≤ 50) ∧
    (∀ (t : String) (plan : List String) (tc : Bool) (email : String)
      (skus : List String),
      validNextStep ⟨t, plan, tc,
        FnChoice.act (Cmd.issueInvoice email skus 51)⟩ = false) ∧
    validNextStep ⟨"t", ["p"], false,
      FnChoice.act (Cmd.issueInvoice "e" [] 50)⟩ = true ∧
    validNextStep ⟨"t", ["p"], false,
      FnChoice.act (Cmd.issueInvoice "e" [] (-1))⟩ = true := by
  refine ⟨?_, ?_, by decide, by decide⟩
  · intro j email skus dp hv hf
    unfold validNextStep at hv
    rw [hf] at hv
    simp [fnValid] at hv
    exact hv.2
  · intro t plan tc email skus
    simp [validNextStep, fnValid]

theorem discount_validation_le50_witness :
    validNextStep ⟨"t", ["p"], false,
      FnChoice.act (Cmd.issueInvoice "e" [] 50)⟩ = true ∧ (50 : ℤ) ≤ 50 :=
  ⟨by decide, discount_validation_le50.1
    ⟨"t", ["p"], false, FnChoice.act (Cmd.issueInvoice "e" [] 50)⟩
    "e" [] 50 (by decide) rfl⟩

/-- An entry of the conversation log the oracle sees: the seeded system and
user messages, the assistant tool-call record and the tool result. -/
inductive LogEntry where
  | system (content : String)
  | user (content : String)
  | assistant (step : String) (fn : Cmd)
  | tool (step : String) (result : DispatchResult)

/-- The observable outcome of one task run: either the oracle reported
completion with a code and a step summary, or the 20-step budget ran out. -/
inductive Outcome where
  | completed (code : CompletionCode) (steps : List String)
  | budgetExhausted
deriving DecidableEq

/-- Result of a task run: outcome, final store and how many actions were
dispatched. -/
structure RunResult where
  outcome : Outcome
  store : Store
  dispatches : ℕ

/-- The inner loop of execute_tasks: repeatedly obtain one decision from
the oracle over the growing log; a ReportTaskCompletion breaks the loop,
any other function is dispatched and both the tool call and its result are
appended to the log; the loop body runs at most the given fuel. -/
def runSteps (oracle : List LogEntry → NextStep) :
    ℕ → ℕ → List LogEntry → Store → RunResult
  | 0, _, _, s => ⟨Outcome.budgetExhausted, s, 0⟩
  | fuel + 1, i, log, s =>
    let job := oracle log
    match job.function with
    | FnChoice.report steps code => ⟨Outcome.completed code steps, s, 0⟩
    | FnChoice.act c =>
      let stepId := "step_" ++ decimalRepr (i + 1)
      let r := dispatch c s
      let rest := runSteps oracle fuel (i + 1)
        (log ++ [LogEntry.assistant stepId c, LogEntry.tool stepId r.1]) r.2
      ⟨rest.outcome, rest.store, rest.dispatches + 1⟩

/-- One task run of execute_tasks: the log is seeded with the system prompt
and the task text, and the loop runs up to 20 reasoning steps. -/
def executeTask (oracle : List LogEntry → NextStep) (sysPrompt task : String)
    (s : Store) : RunResult :=
  runSteps oracle 20 0 [LogEntry.system sysPrompt, LogEntry.user task] s

theorem runSteps_no_report (oracle : List LogEntry → NextStep)
    (h : ∀ log steps code,
      (oracle log).function ≠ FnChoice.report steps code) :
    ∀ fuel i (log : List LogEntry) (s : Store),
      (runSteps oracle fuel i log s).outcome = Outcome.budgetExhausted ∧
      (runSteps oracle fuel i log s).dispatches = fuel := by
  intro fuel
  induction fuel with
  | zero => intro i log s; exact ⟨rfl, rfl⟩
  | succ f ih =>
    intro i log s
    cases hfn : (oracle log).function with
    | report steps code => exact absurd hfn (h log steps code)
    | act c =>
      obtain ⟨h1, h2⟩ := ih (i + 1)
        (log ++ [LogEntry.assistant ("step_" ++ decimalRepr (i + 1)) c,
          LogEntry.tool ("step_" ++ decimalRepr (i + 1)) (dispatch c s).1])
        (dispatch c s).2
      constructor
      · simpa [runSteps, hfn] using h1
      · simp [runSteps, hfn, h2]

/-- Claim C6: for every decision oracle that never returns a
ReportCompletion action, a task run executes exactly the configured budget
of 20 dispatch steps and then terminates in the budget-exhausted state,
which is distinct from every completed outcome. -/
theorem budget_exhaustion (oracle : List LogEntry → NextStep)
    (h : ∀ log steps code,
      (oracle log).function ≠ FnChoice.report steps code)
    (sysPrompt task : String) (s : Store) :
    (executeTask oracle sysPrompt task s).outcome = Outcome.budgetExhausted ∧
    (executeTask oracle sysPrompt task s).dispatches = 20 ∧
    ∀ code steps, (executeTask oracle sysPrompt task s).outcome ≠
      Outcome.completed code steps := by
  obtain ⟨h1, h2⟩ := runSteps_no_report oracle h 20 0
    [LogEntry.system sysPrompt, LogEntry.user task] s
  refine ⟨h1, h2, fun code steps hc => ?_⟩
  rw [show (executeTask oracle sysPrompt task s).outcome =
    (runSteps oracle 20 0 [LogEntry.system sysPrompt, LogEntry.user task]
      s).outcome from rfl, h1] at hc
  cases hc

/-- A decision oracle that always chooses a query action and never reports
completion. -/
def constOracle : List LogEntry → NextStep :=
  fun _ => ⟨"task", ["plan"], false, FnChoice.act (Cmd.getCustomerData "x@y")⟩

theorem budget_exhaustion_witness :
    (∀ log steps code,
      (constOracle log).function ≠ FnChoice.report steps code) ∧
    ((executeTask constOracle "sys" "task" DB).outcome =
        Outcome.budgetExhausted ∧
      (executeTask constOracle "sys" "task" DB).dispatches = 20 ∧
      ∀ code steps, (executeTask constOracle "sys" "task" DB).outcome ≠
        Outcome.completed code steps) :=
  ⟨fun log steps code => by simp [constOracle],
    budget_exhaustion constOracle
      (fun log steps code => by simp [constOracle]) "sys" "task" DB⟩

/-- Claim C10 exhibit: the two dispatch implementations diverge.  The
IssueInvoice branch of src/schema_demo.py computes round(total * 1.0 *
discount / 100.0, 2) with the local variable discount on its own right-hand
side, so the branch raises UnboundLocalError (modelled as none) whenever
every sku exists, while the vanilla implementation returns the new invoice
from the same state. -/
theorem dispatch_implementations_diverge :
    dispatch2 (Cmd.issueInvoice "sama@openai.com" ["SKU-205"] 10) DB =
      none ∧
    ∃ inv s2,
      dispatch (Cmd.issueInvoice "sama@openai.com" ["SKU-205"] 10) DB =
        (DispatchResult.invoice inv, s2) := by
  constructor
  · rfl
  · exact ⟨_, _, rfl⟩

/-- JSON values, as the dictionaries, lists and scalars a model_json_schema
dictionary is built from.  Python dicts are insertion-ordered association
lists. -/
inductive Json where
  | null
  | boolean (b : Bool)
  | num (q : ℚ)
  | str (s : String)
  | arr (items : List Json)
  | obj (fields : List (String × Json))

/-- Embedding of the Python membership test (k in d) on a JSON object. -/
def hasKeyJ (l : List (String × Json)) (k : String) : Bool :=
  l.any (fun p => p.1 == k)

/-- Test whether a JSON value is exactly the string "object". -/
def isStrObject : Json → Bool
  | Json.str s => s == "object"
  | _ => false

/-- Embedding of the schema_dict.get("type") == "object" test. -/
def typeIsObject (fields : List (String × Json)) : Bool :=
  match dictGet fields "type" with
  | some v => isStrObject v
  | none => false

mutual

/-- Embedding of ensure_no_additional_properties called on a dictionary:
first additionalProperties false is appended when the dict is object-typed
and lacks the key, then every dict value and every dict item of a list
value is processed recursively. -/
def ensureObj (fields : List (String × Json)) : Json :=
  if typeIsObject fields && !(hasKeyJ fields "additionalProperties") then
    Json.obj (ensureFields fields ++
      [("additionalProperties", Json.boolean false)])
  else
    Json.obj (ensureFields fields)
termination_by sizeOf fields + 1

/-- The iteration over schema_dict.items(). -/
def ensureFields : List (String × Json) → List (String × Json)
  | [] => []
  | (k, v) :: rest => (k, ensureValue v) :: ensureFields rest
termination_by l => sizeOf l

/-- The per-value branch of the iteration: recurse into dict values, walk
list values, leave every other value unchanged. -/
def ensureValue : Json → Json
  | Json.obj f => ensureObj f
  | Json.arr items => Json.arr (ensureItems items)
  | v => v
termination_by v => sizeOf v + 1

/-- The inner loop over a list value: recurse into dict items only. -/
def ensureItems : List Json → List Json
  | [] => []
  | Json.obj f :: rest => ensureObj f :: ensureItems rest
  | v :: rest => v :: ensureItems rest
termination_by l => sizeOf l

end

/-- Embedding of the top-level ensure_no_additional_properties function:
a no-op on anything that is not a dictionary. -/
def ensure_no_additional_properties : Json → Json
  | Json.obj fields => ensureObj fields
  | j => j

mutual

/-- Full-depth well-formedness used to state the claim: every object-typed
dictionary anywhere in the value, however deeply nested through dicts and
lists, carries an additionalProperties key. -/
def deepOk : Json → Bool
  | Json.obj fields =>
    ((!(typeIsObject fields)) || hasKeyJ fields "additionalProperties") &&
      deepFields fields
  | Json.arr items => deepItems items
  | _ => true
termination_by j => sizeOf j

def deepFields : List (String × Json) → Bool
  | [] => true
  | (_, v) :: rest => deepOk v && deepFields rest
termination_by l => sizeOf l

def deepItems : List Json → Bool
  | [] => true
  | v :: rest => deepOk v && deepItems rest
termination_by l => sizeOf l

end

mutual

/-- Well-formedness along exactly the positions the source traverses:
dictionary values of dictionaries, and dictionary elements of list values;
lists nested inside lists are not entered. -/
def reachOk : Json → Bool
  | Json.obj fields =>
    ((!(typeIsObject fields)) || hasKeyJ fields "additionalProperties") &&
      reachFields fields
  | _ => true
termination_by j => sizeOf j

def reachFields : List (String × Json) → Bool
  | [] => true
  | (_, v) :: rest => reachValue v && reachFields rest
termination_by l => sizeOf l

def reachValue : Json → Bool
  | Json.obj f => reachOk (Json.obj f)
  | Json.arr items => reachItems items
  | _ => true
termination_by v => sizeOf v + 1

def reachItems : List Json → Bool
  | [] => true
  | Json.obj f :: rest => reachOk (Json.obj f) && reachItems rest
  | _ :: rest => reachItems rest
termination_by l => sizeOf l

end

mutual

/-- Erase every additionalProperties entry at every depth; two values that
agree after erasure differ at most in additionalProperties entries. -/
def stripAP : Json → Json
  | Json.obj fields => Json.obj (stripFields fields)
  | Json.arr items => Json.arr (stripItems items)
  | j => j
termination_by j => sizeOf j

def stripFields : List (String × Json) → List (String × Json)
  | [] => []
  | (k, v) :: rest =>
    if k == "additionalProperties" then stripFields rest
    else (k, stripAP v) :: stripFields rest
termination_by l => sizeOf l

def stripItems : List Json → List Json
  | [] => []
  | v :: rest => stripAP v :: stripItems rest
termination_by l => sizeOf l

end

theorem hasKeyJ_ensureFields (l : List (String × Json)) (k : String) :
    hasKeyJ (ensureFields l) k = hasKeyJ l k := by
  induction l with
  | nil => simp [ensureFields]
  | cons p rest ih =>
    obtain ⟨k2, v⟩ := p
    simp [ensureFields, hasKeyJ] at ih ⊢
    rw [ih]

theorem dictGet_ensureFields (l : List (String × Json)) (k : String) :
    dictGet (ensureFields l) k = Option.map ensureValue (dictGet l k) := by
  induction l with
  | nil => simp [ensureFields, dictGet]
  | cons p rest ih =>
    obtain ⟨k2, v⟩ := p
    rw [show ensureFields ((k2, v) :: rest) =
      (k2, ensureValue v) :: ensureFields rest from by simp [ensureFields]]
    rw [dictGet_cons, dictGet_cons]
    by_cases h : k2 = k
    · simp [h]
    · simp [h, ih]

theorem isStrObject_ensureValue (v : Json) :
    isStrObject (ensureValue v) = isStrObject v := by
  cases v with
  | obj f =>
    rw [show ensureValue (Json.obj f) = ensureObj f from by simp [ensureValue]]
    unfold ensureObj
    split <;> simp [isStrObject]
  | arr items => simp [ensureValue, isStrObject]
  | null => simp [ensureValue, isStrObject]
  | boolean b => simp [ensureValue, isStrObject]
  | num q => simp [ensureValue, isStrObject]
  | str s2 => simp [ensureValue, isStrObject]

theorem typeIsObject_ensureFields (l : List (String × Json)) :
    typeIsObject (ensureFields l) = typeIsObject l := by
  unfold typeIsObject
  rw [dictGet_ensureFields]
  cases dictGet l "type" with
  | none => rfl
  | some v => simp [isStrObject_ensureValue]

theorem reachFields_append (a b : List (String × Json)) :
    reachFields (a ++ b) = (reachFields a && reachFields b) := by
  induction a with
  | nil => simp [reachFields]
  | cons p rest ih =>
    obtain ⟨k, v⟩ := p
    simp [reachFields, ih, Bool.and_assoc]

theorem stripFields_append (a b : List (String × Json)) :
    stripFields (a ++ b) = stripFields a ++ stripFields b := by
  induction a with
  | nil => simp [stripFields]
  | cons p rest ih =>
    obtain ⟨k, v⟩ := p
    by_cases hk : (k == "additionalProperties") = true <;>
      simp [stripFields, hk, ih]

theorem ensureObj_is_obj (fields : List (String × Json)) :
    ∃ g, ensureObj fields = Json.obj g := by
  unfold ensureObj
  split <;> exact ⟨_, rfl⟩

theorem reachValue_ensureObj (fields : List (String × Json)) :
    reachValue (ensureObj fields) = reachOk (ensureObj fields) := by
  obtain ⟨g, hg⟩ := ensureObj_is_obj fields
  rw [hg]
  simp [reachValue]

theorem reach_ensureObj : ∀ fields, reachOk (ensureObj fields) = true := by
  refine ensureObj.induct
    (fun fields => reachOk (ensureObj fields) = true)
    (fun l => reachFields (ensureFields l) = true)
    (fun v => reachValue (ensureValue v) = true)
    (fun items => reachItems (ensureItems items) = true)
    ?_ ?_ ?_ ?_ ?_ ?_ ?_ ?_ ?_ ?_
  · intro fields hcond ih2
    rw [show ensureObj fields = Json.obj (ensureFields fields ++
      [("additionalProperties", Json.boolean false)]) from by
        unfold ensureObj; rw [if_pos hcond]]
    simp [reachOk, hasKeyJ, reachFields_append, ih2, reachFields, reachValue,
      List.any_append]
  · intro fields hcond ih2
    rw [show ensureObj fields = Json.obj (ensureFields fields) from by
      unfold ensureObj; rw [if_neg hcond]]
    simp only [reachOk]
    rw [typeIsObject_ensureFields, hasKeyJ_ensureFields, ih2]
    revert hcond
    cases typeIsObject fields <;>
      cases hasKeyJ fields "additionalProperties" <;> simp
  · simp [ensureFields, reachFields]
  · intro k v rest ih3 ih2
    rw [show ensureFields ((k, v) :: rest) =
      (k, ensureValue v) :: ensureFields rest from by simp [ensureFields]]
    simp [reachFields, ih3, ih2]
  · intro f ih1
    rw [show ensureValue (Json.obj f) = ensureObj f from by simp [ensureValue]]
    rw [reachValue_ensureObj]
    exact ih1
  · intro items ih4
    rw [show ensureValue (Json.arr items) = Json.arr (ensureItems items)
      from by simp [ensureValue]]
    simp [reachValue, ih4]
  · intro v h1 h2
    cases v with
    | obj f => exact absurd rfl (h1 f)
    | arr items => exact absurd rfl (h2 items)
    | null => simp [ensureValue, reachValue]
    | boolean b => simp [ensureValue, reachValue]
    | num q => simp [ensureValue, reachValue]
    | str s2 => simp [ensureValue, reachValue]
  · simp [ensureItems, reachItems]
  · intro f rest ih1 ih4
    rw [show ensureItems (Json.obj f :: rest) =
      ensureObj f :: ensureItems rest from by simp [ensureItems]]
    obtain ⟨g, hg⟩ := ensureObj_is_obj f
    rw [hg] at ih1 ⊢
    simp [reachItems, ih1, ih4]
  · intro v rest h1 ih4
    cases v with
    | obj f => exact absurd rfl (h1 f)
    | arr items => simp [ensureItems, reachItems, ih4]
    | null => simp [ensureItems, reachItems, ih4]
    | boolean b => simp [ensureItems, reachItems, ih4]
    | num q => simp [ensureItems, reachItems, ih4]
    | str s2 => simp [ensureItems, reachItems, ih4]

theorem strip_ensureObj :
    ∀ fields, stripAP (ensureObj fields) = stripAP (Json.obj fields) := by
  refine ensureObj.induct
    (fun fields => stripAP (ensureObj fields) = stripAP (Json.obj fields))
    (fun l => stripFields (ensureFields l) = stripFields l)
    (fun v => stripAP (ensureValue v) = stripAP v)
    (fun items => stripItems (ensureItems items) = stripItems items)
    ?_ ?_ ?_ ?_ ?_ ?_ ?_ ?_ ?_ ?_
  · intro fields hcond ih2
    rw [show ensureObj fields = Json.obj (ensureFields fields ++
      [("additionalProperties", Json.boolean false)]) from by
        unfold ensureObj; rw [if_pos hcond]]
    simp [stripAP, stripFields_append, stripFields, ih2]
  · intro fields hcond ih2
    rw [show ensureObj fields = Json.obj (ensureFields fields) from by
      unfold ensureObj; rw [if_neg hcond]]
    simp [stripAP, ih2]
  · simp [ensureFields]
  · intro k v rest ih3 ih2
    rw [show ensureFields ((k, v) :: rest) =
      (k, ensureValue v) :: ensureFields rest from by simp [ensureFields]]
    by_cases hk : (k == "additionalProperties") = true <;>
      simp [stripFields, hk, ih3, ih2]
  · intro f ih1
    rw [show ensureValue (Json.obj f) = ensureObj f from by simp [ensureValue]]
    exact ih1
  · intro items ih4
    rw [show ensureValue (Json.arr items) = Json.arr (ensureItems items)
      from by simp [ensureValue]]
    simp [stripAP, ih4]
  · intro v h1 h2
    cases v with
    | obj f => exact absurd rfl (h1 f)
    | arr items => exact absurd rfl (h2 items)
    | null => simp [ensureValue]
    | boolean b => simp [ensureValue]
    | num q => simp [ensureValue]
    | str s2 => simp [ensureValue]
  · simp [ensureItems]
  · intro f rest ih1 ih4
    rw [show ensureItems (Json.obj f :: rest) =
      ensureObj f :: ensureItems rest from by simp [ensureItems]]
    simp [stripItems, ih1, ih4]
  · intro v rest h1 ih4
    cases v with
    | obj f => exact absurd rfl (h1 f)
    | arr items => simp [ensureItems, stripItems, ih4]
    | null => simp [ensureItems, stripItems, ih4]
    | boolean b => simp [ensureItems, stripItems, ih4]
    | num q => simp [ensureItems, stripItems, ih4]
    | str s2 => simp [ensureItems, stripItems, ih4]

/-- Claim C9 counterexample: the transform does not reach every nesting
depth.  On the dictionary whose items key holds a list containing a list
containing an object-typed dictionary without additionalProperties, the
transform returns its input unchanged, and the full-depth property that
every object-typed subschema carries an additionalProperties key fails on
that output. -/
theorem ensureNAP_nested_list_counterexample :
    ensure_no_additional_properties
      (Json.obj [("items", Json.arr [Json.arr
        [Json.obj [("type", Json.str "object")]]])]) =
      Json.obj [("items", Json.arr [Json.arr
        [Json.obj [("type", Json.str "object")]]])] ∧
    deepOk (ensure_no_additional_properties
      (Json.obj [("items", Json.arr [Json.arr
        [Json.obj [("type", Json.str "object")]]])])) = false := by
  have h1 : ensure_no_additional_properties
      (Json.obj [("items", Json.arr [Json.arr
        [Json.obj [("type", Json.str "object")]]])]) =
      Json.obj [("items", Json.arr [Json.arr
        [Json.obj [("type", Json.str "object")]]])] := by
    rw [ensure_no_additional_properties]
    rw [show ensureObj [("items", Json.arr [Json.arr
      [Json.obj [("type", Json.str "object")]]])] =
        Json.obj (ensureFields [("items", Json.arr [Json.arr
          [Json.obj [("type", Json.str "object")]]])]) from by
      unfold ensureObj
      rw [if_neg (by simp [typeIsObject, dictGet, List.find?, isStrObject])]]
    rw [show ensureFields [("items", Json.arr [Json.arr
      [Json.obj [("type", Json.str "object")]]])] =
        [("items", ensureValue (Json.arr [Json.arr
          [Json.obj [("type", Json.str "object")]]]))] from by
      simp [ensureFields]]
    rw [show ensureValue (Json.arr [Json.arr
      [Json.obj [("type", Json.str "object")]]]) =
        Json.arr (ensureItems [Json.arr
          [Json.obj [("type", Json.str "object")]]]) from by
      simp [ensureValue]]
    rw [show ensureItems [Json.arr [Json.obj [("type", Json.str "object")]]] =
      [Json.arr [Json.obj [("type", Json.str "object")]]] from by
      simp [ensureItems]]
  refine ⟨h1, ?_⟩
  rw [h1]
  simp [deepOk, deepFields, deepItems, typeIsObject, dictGet, List.find?,
    isStrObject, hasKeyJ]

/-- Claim C9 as amended: the transform is pure and recursive, appends
additionalProperties false to every object-typed dictionary lacking the key
along the positions it traverses, namely dictionary values of dictionaries
and dictionary elements of list values (dictionaries nested inside lists
within lists are not reached), and changes nothing else: erasing all
additionalProperties entries from the output yields the input with all
additionalProperties entries erased. -/
theorem ensureNAP_reachable_and_preserves :
    (∀ j, reachOk (ensure_no_additional_properties j) = true) ∧
    (∀ j, stripAP (ensure_no_additional_properties j) = stripAP j) ∧
    (∀ fields, typeIsObject fields = true →
      hasKeyJ fields "additionalProperties" = false →
      ensureObj fields = Json.obj (ensureFields fields ++
        [("additionalProperties", Json.boolean false)])) := by
  refine ⟨?_, ?_, ?_⟩
  · intro j
    cases j with
    | obj fields =>
      rw [ensure_no_additional_properties]
      exact reach_ensureObj fields
    | arr items => simp [ensure_no_additional_properties, reachOk]
    | null => simp [ensure_no_additional_properties, reachOk]
    | boolean b => simp [ensure_no_additional_properties, reachOk]
    | num q => simp [ensure_no_additional_properties, reachOk]
    | str s2 => simp [ensure_no_additional_properties, reachOk]
  · intro j
    cases j with
    | obj fields =>
      rw [ensure_no_additional_properties]
      exact strip_ensureObj fields
    | arr items => simp [ensure_no_additional_properties]
    | null => simp [ensure_no_additional_properties]
    | boolean b => simp [ensure_no_additional_properties]
    | num q => simp [ensure_no_additional_properties]
    | str s2 => simp [ensure_no_additional_properties]
  · intro fields ht hk
    unfold ensureObj
    rw [if_pos (by rw [ht, hk]; rfl)]

theorem ensureNAP_reachable_and_preserves_witness :
    typeIsObject [("type", Json.str "object")] = true ∧
    hasKeyJ [("type", Json.str "object")] "additionalProperties" = false ∧
    ensureObj [("type", Json.str "object")] =
      Json.obj (ensureFields [("type", Json.str "object")] ++
        [("additionalProperties", Json.boolean false)]) :=
  ⟨by decide, by decide,
    ensureNAP_reachable_and_preserves.2.2 [("type", Json.str "object")]
      (by decide) (by decide)⟩
